import Mathlib

/-!
Shallow embedding of the fr3d-python core covered by the spec: the mmCIF
reader's assembly/residue construction (src/fr3d/cif/reader.py) and the
Component entity (src/fr3d/data/components.py).  Coordinates are rational
numbers; Python `None` is `Option.none`; Python exceptions are the explicit
error results of `Except PyErr`.
-/

namespace FR3D

/-- Python exception kinds that the embedded code can raise. -/
inductive PyErr
  | typeError
  | valueError
  | attributeError
  | complexOperator
  | indexError
deriving DecidableEq, Repr

/-- Value of the `label_seq_id`-derived index field: Python `None`, a string
(the placeholder `"."` is kept as a string by the reader), or an int. -/
inductive PyIdx
  | pynone
  | pystr (s : String)
  | pyint (n : Int)
deriving DecidableEq, Repr

/-- An integer as a rational number in constructor form.  The arithmetic on
`ℚ` used by this embedding is the `q*` family below: each operation is
definitionally transparent (so that concrete runs of the embedded code
reduce) and is proved equal to the corresponding Mathlib operation. -/
def qint (n : Int) : ℚ := ⟨n, 1, one_ne_zero, Nat.coprime_one_right _⟩

/-- Transparent rational addition. -/
def qadd (a b : ℚ) : ℚ :=
  Rat.normalize (a.num * (b.den : Int) + b.num * (a.den : Int)) (a.den * b.den)
    (Nat.mul_ne_zero a.den_nz b.den_nz)

/-- Transparent rational multiplication. -/
def qmul (a b : ℚ) : ℚ :=
  Rat.normalize (a.num * b.num) (a.den * b.den) (Nat.mul_ne_zero a.den_nz b.den_nz)

/-- Transparent rational negation. -/
def qneg (a : ℚ) : ℚ := ⟨-a.num, a.den, a.den_nz, by simpa using a.reduced⟩

/-- Transparent rational subtraction. -/
def qsub (a b : ℚ) : ℚ := qadd a (qneg b)

/-- Transparent division of a rational by a natural number. -/
def qdivNat (a : ℚ) (n : Nat) : ℚ := mkRat a.num (a.den * n)

/-- Transparent absolute value. -/
def qabs (a : ℚ) : ℚ := if a.num < 0 then qneg a else a

/-- A 3-D point/vector with rational coordinates. -/
structure Vec3 where
  x : ℚ
  y : ℚ
  z : ℚ
deriving DecidableEq, Repr

def Vec3.add (a b : Vec3) : Vec3 := ⟨qadd a.x b.x, qadd a.y b.y, qadd a.z b.z⟩

def Vec3.neg (a : Vec3) : Vec3 := ⟨qneg a.x, qneg a.y, qneg a.z⟩

def Vec3.zero : Vec3 := ⟨0, 0, 0⟩

/-- Squared Euclidean distance between two points. -/
def Vec3.dist2 (a b : Vec3) : ℚ :=
  qadd (qadd (qmul (qsub a.x b.x) (qsub a.x b.x)) (qmul (qsub a.y b.y) (qsub a.y b.y)))
    (qmul (qsub a.z b.z) (qsub a.z b.z))

/-- A 3x3 matrix with rational entries, row major. -/
structure Mat3 where
  m00 : ℚ
  m01 : ℚ
  m02 : ℚ
  m10 : ℚ
  m11 : ℚ
  m12 : ℚ
  m20 : ℚ
  m21 : ℚ
  m22 : ℚ
deriving DecidableEq, Repr

def Mat3.transpose (m : Mat3) : Mat3 :=
  ⟨m.m00, m.m10, m.m20, m.m01, m.m11, m.m21, m.m02, m.m12, m.m22⟩

/-- Matrix-vector product `m · v`. -/
def Mat3.mulVec (m : Mat3) (v : Vec3) : Vec3 :=
  ⟨qadd (qadd (qmul m.m00 v.x) (qmul m.m01 v.y)) (qmul m.m02 v.z),
   qadd (qadd (qmul m.m10 v.x) (qmul m.m11 v.y)) (qmul m.m12 v.z),
   qadd (qadd (qmul m.m20 v.x) (qmul m.m21 v.y)) (qmul m.m22 v.z)⟩

def Mat3.id : Mat3 := ⟨1, 0, 0, 0, 1, 0, 0, 0, 1⟩

/-- A 4x4 homogeneous transform matrix with rational entries, row major. -/
structure Mat4 where
  a00 : ℚ
  a01 : ℚ
  a02 : ℚ
  a03 : ℚ
  a10 : ℚ
  a11 : ℚ
  a12 : ℚ
  a13 : ℚ
  a20 : ℚ
  a21 : ℚ
  a22 : ℚ
  a23 : ℚ
  a30 : ℚ
  a31 : ℚ
  a32 : ℚ
  a33 : ℚ
deriving DecidableEq, Repr

/-- Apply a 4x4 homogeneous transform to a point `(x, y, z, 1)`, keeping the
first three rows of the product. -/
def Mat4.apply (m : Mat4) (v : Vec3) : Vec3 :=
  ⟨qadd (qadd (qadd (qmul m.a00 v.x) (qmul m.a01 v.y)) (qmul m.a02 v.z)) m.a03,
   qadd (qadd (qadd (qmul m.a10 v.x) (qmul m.a11 v.y)) (qmul m.a12 v.z)) m.a13,
   qadd (qadd (qadd (qmul m.a20 v.x) (qmul m.a21 v.y)) (qmul m.a22 v.z)) m.a23⟩

def Mat4.id : Mat4 := ⟨1, 0, 0, 0, 0, 1, 0, 0, 0, 0, 1, 0, 0, 0, 0, 1⟩

/-- Modelled from the spec: the `Atom` value of §3 (fr3d/data/atoms.py is not
among the given sources).  An immutable record of identifiers, a coordinate,
an atom name and a symmetry-operator name; optional fields are `Option`. -/
structure Atom where
  pdb : Option String := none
  model : Option Int := none
  chain : Option String := none
  component_id : Option String := none
  component_number : Option Int := none
  component_index : PyIdx := .pynone
  ins_code : Option String := none
  alt_id : Option String := none
  group : Option String := none
  type_ : Option String := none
  polymeric : Option Bool := none
  symmetry : Option String := none
  name : String
  x : ℚ
  y : ℚ
  z : ℚ
deriving DecidableEq, Repr

def Atom.pos (a : Atom) : Vec3 := ⟨a.x, a.y, a.z⟩

/-- Modelled from the spec: an atom's coordinate is passed through the 4x4
transform while every identity/type field is preserved (§4.4, `Atom.transform`
of the missing fr3d/data/atoms.py). -/
def Atom.transform (m : Mat4) (a : Atom) : Atom :=
  let p := m.apply a.pos
  { a with x := p.x, y := p.y, z := p.z }

/-- Squared distance between two atoms. -/
def Atom.dist2 (a b : Atom) : ℚ := Vec3.dist2 a.pos b.pos

/-- Modelled from the spec: the composite identity key of an atom, the
grouping key of §3/§4.3 (`Atom.component_unit_id` of the missing
fr3d/data/atoms.py): structure id, model, chain, symmetry-operator name,
component id, component number, optional index, optional insertion code and
optional alternate-location id. -/
structure UnitKey where
  pdb : Option String
  model : Option Int
  chain : Option String
  symmetry : Option String
  component_id : Option String
  component_number : Option Int
  component_index : PyIdx
  ins_code : Option String
  alt_id : Option String
deriving DecidableEq, Repr

def Atom.component_unit_id (a : Atom) : UnitKey :=
  ⟨a.pdb, a.model, a.chain, a.symmetry, a.component_id, a.component_number,
   a.component_index, a.ins_code, a.alt_id⟩

/-- Lookup in an association list (Python dict built by successive inserts is
modelled by `dictGet` below, which prefers the last binding). -/
def alookup {α : Type} (l : List (String × α)) (k : String) : Option α :=
  (l.find? (fun p => p.1 = k)).map (fun p => p.2)

/-- Lookup preferring the last binding, as a Python dict built by repeated
assignment does. -/
def dictGet {α : Type} (l : List (String × α)) (k : String) : Option α :=
  alookup l.reverse k

/-- Modelled from the spec: one entry of the modified-nucleotide table of
fr3d/definitions.py (not among the given sources): the parent standard
residue type and the standard-atom to modified-atom correspondence (§4.4). -/
structure ModNt where
  standard : String
  atomsMap : List (String × String)
deriving DecidableEq, Repr

/-- Modelled from the spec: the static residue-chemistry tables of
fr3d/definitions.py and the external least-squares superposition of
fr3d/geometry/superpositions.py (neither is among the given sources).  The
tables are association lists from residue type to atom-name lists or
reference coordinates; `fit` stands for the numeric SVD-based rigid
alignment, invoked only on point sets with at least three points (`none`
models a degenerate decomposition, §4.4).  The model assumes each
coordinates table is complete for the atom names it is consulted on, so dict
lookups on it are total (missing entries default to the origin). -/
structure Env where
  RNAbaseheavyatoms : List (String × List String)
  nt_sugar : List (String × List String)
  nt_phosphate : List (String × List String)
  aa_fg : List (String × List String)
  aa_backbone : List (String × List String)
  modified_nucleotides : List (String × ModNt)
  RNAbasecoordinates : List (String × List (String × Vec3))
  RNAbasehydrogens : List (String × List String)
  fit : List Vec3 → List Vec3 → Option Mat3

/-- Modelled from the spec: `besttransformation` fails when either input has
fewer than 3 points, and may also fail on a degenerate decomposition (§4.4);
on success the fitted rotation is the one computed by the external numeric
code, represented by `Env.fit`. -/
def besttransformation (env : Env) (r s : List Vec3) : Option Mat3 :=
  if r.length < 3 ∨ s.length < 3 then none else env.fit r s

/-- The Component entity of src/fr3d/data/components.py.  `atoms_` is the
mutable `_atoms` list; `centerDefs` records the named atom-center groups
defined on `self.centers` during `__init__` (later entries override earlier
ones); `rotation_matrix := none` models the attribute never having been set
(`calculate_rotation_matrix` returns early or its superposition fails). -/
structure Component where
  atoms_ : List Atom
  pdb : Option String := none
  model : Option Int := none
  type_ : Option String := none
  chain : Option String := none
  symmetry : Option String := none
  sequence : Option String := none
  number : Option Int := none
  index : PyIdx := .pynone
  insertion_code : Option String := none
  polymeric : Option Bool := none
  alt_id : Option String := none
  centerDefs : List (String × List String) := []
  rotation_matrix : Option Mat3 := none
deriving DecidableEq, Repr

/-- The named-group definition recorded for `name`, the last `define` winning
(`Component.__init__` defines `base` twice for a modified nucleotide). -/
def Component.centerDef (c : Component) (name : String) : Option (List String) :=
  dictGet c.centerDefs name

/-- Centroid of a non-empty list of points: the coordinate sums divided by
the number of points. -/
def centroid (ps : List Vec3) : Vec3 :=
  let s := ps.foldl Vec3.add Vec3.zero
  ⟨qdivNat s.x ps.length, qdivNat s.y ps.length, qdivNat s.z ps.length⟩

/-- Modelled from the spec: `AtomProxy` lookup (fr3d/data/base.py is not
among the given sources) — a defined group name resolves to the lazy average
of the atoms whose name is in the group's atom-name set, an undefined name
falls back to the atoms bearing exactly that name; the result is empty
(`none`) when no atom matches (§3, §4.5). -/
def Component.centerOf (c : Component) (name : String) : Option Vec3 :=
  let names := match c.centerDef name with
    | some ns => ns
    | none => [name]
  let pts := (c.atoms_.filter (fun a => a.name ∈ names)).map Atom.pos
  if pts.isEmpty then none else some (centroid pts)

/-- The chain of `self.centers.define(...)` calls in `Component.__init__`
(src/fr3d/data/components.py lines 40-62), in source order; the
modified-nucleotide case redefines `base` with the values of its atom
correspondence map. -/
def defineCenters (env : Env) (seq : Option String) : List (String × List String) :=
  match seq with
  | none => []
  | some s =>
    (match alookup env.RNAbaseheavyatoms s with
      | some ns => [("base", ns)] | none => []) ++
    (match alookup env.nt_sugar s with
      | some ns => [("nt_sugar", ns)] | none => []) ++
    (match alookup env.nt_phosphate s with
      | some ns => [("nt_phosphate", ns)] | none => []) ++
    (match alookup env.aa_fg s with
      | some ns => [("aa_fg", ns)] | none => []) ++
    (match alookup env.aa_backbone s with
      | some ns => [("aa_backbone", ns)] | none => []) ++
    (match alookup env.modified_nucleotides s with
      | some m => [("base", m.atomsMap.map (fun p => p.2))] | none => [])

/-- `Component.calculate_rotation_matrix` (src/fr3d/data/components.py lines
127-171): for a standard or modified nucleotide type, pair each observed
heavy-atom position with its reference coordinate (modified correspondences
first, then the standard heavy atoms, as the two `if` blocks run in that
order), and fit; any superposition failure is caught and leaves the rotation
unset (`none`). -/
def calcRotation (env : Env) (c : Component) : Option Mat3 :=
  match c.sequence with
  | none => none
  | some s =>
    if (alookup env.RNAbaseheavyatoms s).isNone ∧
        (alookup env.modified_nucleotides s).isNone then none
    else
      let modPairs : List (Vec3 × Vec3) :=
        match alookup env.modified_nucleotides s with
        | none => []
        | some m =>
          let stdCoords := (alookup env.RNAbasecoordinates m.standard).getD []
          m.atomsMap.filterMap (fun p =>
            match c.centerOf p.2 with
            | some coords => some (coords, (alookup stdCoords p.1).getD Vec3.zero)
            | none => none)
      let stdPairs : List (Vec3 × Vec3) :=
        match alookup env.RNAbaseheavyatoms s with
        | none => []
        | some baseheavy =>
          let coordsTable := (alookup env.RNAbasecoordinates s).getD []
          (c.atoms_.filter (fun a => a.name ∈ baseheavy)).map
            (fun a => (a.pos, (alookup coordsTable a.name).getD Vec3.zero))
      let pairs := modPairs ++ stdPairs
      besttransformation env (pairs.map (fun p => p.1)) (pairs.map (fun p => p.2))

/-- `Component.__init__` (src/fr3d/data/components.py lines 16-64): store the
atoms and identity fields, define the named center groups for the sequence,
then compute the rotation matrix. -/
def mkComponent (env : Env) (atoms : List Atom) (pdb : Option String)
    (model : Option Int) (type_ chain symmetry sequence : Option String)
    (number : Option Int) (index : PyIdx) (insertion_code : Option String)
    (polymeric : Option Bool) (alt_id : Option String) : Component :=
  let c0 : Component :=
    { atoms_ := atoms, pdb := pdb, model := model, type_ := type_,
      chain := chain, symmetry := symmetry, sequence := sequence,
      number := number, index := index, insertion_code := insertion_code,
      polymeric := polymeric, alt_id := alt_id,
      centerDefs := defineCenters env sequence, rotation_matrix := none }
  { c0 with rotation_matrix := calcRotation env c0 }

/-- The `name` keyword argument accepted by `Component.atoms`: absent, a
single string, or a list of names. -/
inductive NameFilter
  | noneF
  | strF (s : String)
  | listF (ns : List String)
deriving DecidableEq, Repr

/-- `Component.atoms` (src/fr3d/data/components.py lines 67-81) together with
the modelled-from-the-spec `EntitySelector` filtering (fr3d/data/base.py is
not among the given sources, §4.5): no filter returns all atoms in order; a
string filter first resolves through the named-group definitions and
otherwise matches the literal name; a list filter keeps the atoms whose name
is in the list. -/
def Component.atomsSel (c : Component) (f : NameFilter) : List Atom :=
  match f with
  | .noneF => c.atoms_
  | .strF s =>
    match c.centerDef s with
    | some ns => c.atoms_.filter (fun a => a.name ∈ ns)
    | none => c.atoms_.filter (fun a => a.name = s)
  | .listF ns => c.atoms_.filter (fun a => a.name ∈ ns)

/-- `Component.is_complete` (src/fr3d/data/components.py lines 112-125) with
the default key `name`: compare the number of atoms selected by the name
list with the number of requested names. -/
def Component.is_complete (c : Component) (names : List String) : Bool :=
  (c.atomsSel (.listF names)).length == names.length

/-- The atom list used by `atoms_within` on each side: all atoms when the
name restriction is absent (`kw1`/`kw2` stay empty), the name-filtered list
otherwise. -/
def Component.selAtoms (c : Component) (o : Option (List String)) : List Atom :=
  match o with
  | none => c.atoms_
  | some ns => c.atomsSel (.listF ns)

/-- The in-range test of `atoms_within`: `atom1.distance(atom2) <= abs(cutoff)`,
taken on squared distances (both sides are non-negative). -/
def closeB (cutoff : ℚ) (a1 a2 : Atom) : Bool :=
  Atom.dist2 a1 a2 ≤ qmul (qabs cutoff) (qabs cutoff)

/-- `Component.atoms_within` (src/fr3d/data/components.py lines 326-351):
count, over the two (optionally name-restricted) atom lists, the pairs whose
distance is at most `|cutoff|`; return `True` when the count reaches
`min_number` and otherwise fall off the end of the function, i.e. return
Python `None`. -/
def Component.atoms_within (c other : Component) (cutoff : ℚ)
    (usingNames toNames : Option (List String)) (min_number : Int) : Option Bool :=
  if min_number ≤ (c.selAtoms usingNames).foldl (fun acc a1 =>
      (other.selAtoms toNames).foldl (fun acc2 a2 =>
        if closeB cutoff a1 a2 then acc2 + 1 else acc2) acc) 0
  then some true else none

/-- `Component.__eq__` (src/fr3d/data/components.py lines 376-385): both
values here are Components, so the `isinstance` test holds and equality is
the conjunction over pdb, model, chain, symmetry, sequence, number,
insertion code and alt id — the `index` field is not compared. -/
def Component.eqPy (a b : Component) : Bool :=
  decide (a.pdb = b.pdb) && decide (a.model = b.model) &&
  decide (a.chain = b.chain) && decide (a.symmetry = b.symmetry) &&
  decide (a.sequence = b.sequence) && decide (a.number = b.number) &&
  decide (a.insertion_code = b.insertion_code) && decide (a.alt_id = b.alt_id)

/-- Reading `self.rotation_matrix`: the attribute was never assigned when the
rotation computation bailed out, so Python raises `AttributeError` there. -/
def Component.getRotation (c : Component) : Except PyErr Mat3 :=
  match c.rotation_matrix with
  | none => .error .attributeError
  | some r => .ok r

/-- `Component.infer_hydrogens` (src/fr3d/data/components.py lines 173-189):
for a sequence with a hydrogen template, append one atom per template
hydrogen at `base_center + R · offset` (the source's `np.dot(offset, Rᵀ)` as
a row vector); the appended atoms carry only a name and coordinates.  An
empty base center makes the numpy addition fail and an unset rotation matrix
raises `AttributeError`; with an empty template the loop body never runs.
The lazy `base` center is modelled as computed once per pass. -/
def Component.infer_hydrogens (env : Env) (c : Component) : Except PyErr Component :=
  match c.sequence.bind (alookup env.RNAbasehydrogens) with
  | none => .ok c
  | some hydrogens =>
    if hydrogens.isEmpty then .ok c
    else
      let coordsTable := (c.sequence.bind (alookup env.RNAbasecoordinates)).getD []
      match c.centerOf "base" with
      | none => .error .valueError
      | some ctr =>
        match c.getRotation with
        | .error e => .error e
        | .ok r =>
          .ok { c with atoms_ := c.atoms_ ++ hydrogens.map (fun h =>
            let hc := (alookup coordsTable h).getD Vec3.zero
            let p := ctr.add (r.mulVec hc)
            { name := h, x := p.x, y := p.y, z := p.z }) }

/-- `Component.transform` (src/fr3d/data/components.py lines 191-214):
transform every atom (`self.atoms()` with no filter), build a new Component
with the same identity fields, then infer hydrogens on the result.  Existing
hydrogens are transformed along with every other atom and kept. -/
def Component.transform (env : Env) (c : Component) (m : Mat4) : Except PyErr Component :=
  let atoms := c.atoms_.map (Atom.transform m)
  let comp := mkComponent env atoms c.pdb c.model c.type_ c.chain c.symmetry
    c.sequence c.number c.index c.insertion_code c.polymeric c.alt_id
  comp.infer_hydrogens env

/-- The 4x4 matrix assembled by `standard_transformation`: upper-left block
the transposed rotation, translation column `−Rᵀ·c`, last row `(0 0 0 1)`. -/
def specStandardMat (rt : Mat3) (ctr : Vec3) : Mat4 :=
  let t := (rt.mulVec ctr).neg
  ⟨rt.m00, rt.m01, rt.m02, t.x,
   rt.m10, rt.m11, rt.m12, t.y,
   rt.m20, rt.m21, rt.m22, t.z,
   0, 0, 0, 1⟩

/-- `Component.standard_transformation` (src/fr3d/data/components.py lines
270-294): `None` when no `base` group is defined or the base center is
empty; otherwise read `self.rotation_matrix` (raising `AttributeError` when
it was never set) and assemble `[Rᵀ | −Rᵀ·c; 0 0 0 1]`. -/
def Component.standard_transformation (c : Component) : Except PyErr (Option Mat4) :=
  if (c.centerDef "base").isNone then .ok none
  else
    match c.centerOf "base" with
    | none => .ok none
    | some ctr =>
      match c.getRotation with
      | .error e => .error e
      | .ok r => .ok (some (specStandardMat r.transpose ctr))

/-- Calling a Python `str` value as a function raises `TypeError`. -/
def pyCallString (_s : String) : Except PyErr String :=
  .error .typeError

/-- The fixed hydrogen-bond donor/acceptor atom-name set of
`enough_hydrogen_bonds`. -/
def hbAtomNames : List String :=
  ["N", "NH1", "NH2", "NE", "NZ", "ND1", "NE2", "O", "OD1", "OE1", "OE2", "OG", "OH"]

/-- `Component.enough_hydrogen_bonds` (src/fr3d/data/components.py lines
403-420): the body begins with `base_seq = self.sequence()`, a call on the
string-valued (or `None`-valued) `sequence` attribute, which raises
`TypeError`; the counting loop below that line (kept here for faithfulness,
with the early exit folded into the final comparison) is unreachable. -/
def Component.enough_hydrogen_bonds (env : Env) (c second : Component)
    (min_distance : ℚ) (min_bonds : Int) : Except PyErr Bool :=
  match c.sequence with
  | none => .error .typeError
  | some s =>
    match pyCallString s with
    | .error e => .error e
    | .ok base_seq =>
      let baseAtoms := c.atomsSel (.listF ((alookup env.RNAbaseheavyatoms base_seq).getD []))
      let aaAtoms := second.atomsSel
        (.listF ((second.sequence.bind (alookup env.aa_fg)).getD []))
      let n : Int := baseAtoms.foldl (fun acc a1 =>
        aaAtoms.foldl (fun acc2 a2 =>
          if (0 ≤ min_distance ∧
              Atom.dist2 a1 a2 ≤ qmul min_distance min_distance) ∧
              a2.name ∈ hbAtomNames
          then acc2 + 1 else acc2) acc) 0
      .ok (decide (min_bonds < n))

/-- Equality of `Except` results is decidable when both components are. -/
instance {e a : Type} [DecidableEq e] [DecidableEq a] : DecidableEq (Except e a)
  | .error x, .error y =>
    if h : x = y then .isTrue (by rw [h])
    else .isFalse (by intro hc; cases hc; exact h rfl)
  | .error _, .ok _ => .isFalse (by intro h; cases h)
  | .ok _, .error _ => .isFalse (by intro h; cases h)
  | .ok x, .ok y =>
    if h : x = y then .isTrue (by rw [h])
    else .isFalse (by intro hc; cases hc; exact h rfl)

/-- One row of the `atom_site` category as consumed by `CIF.__atoms__`
(src/fr3d/cif/reader.py lines 99-125).  The fields whose numeric conversion
is not claim-relevant (`pdbx_PDB_model_num`, `auth_seq_id`, the Cartesian
coordinates) are carried already parsed; `label_seq_id` and
`pdbx_PDB_ins_code` stay textual because the reader inspects their
placeholder tokens. -/
structure AtomSiteRow where
  label_seq_id : String
  pdbx_PDB_ins_code : String
  pdbx_PDB_model_num : Int
  auth_asym_id : String
  label_comp_id : String
  auth_seq_id : Int
  cx : ℚ
  cy : ℚ
  cz : ℚ
  label_atom_id : String
deriving DecidableEq, Repr

/-- Decimal digits to a number, `none` on a non-digit. -/
def parseDigits : Nat → List Char → Option Nat
  | acc, [] => some acc
  | acc, c :: cs =>
    if c.isDigit then parseDigits (acc * 10 + (c.toNat - 48)) cs else none

/-- Python `int(s)` on a string: the parsed (optionally negated) integer, or
`ValueError`. -/
def pyInt (s : String) : Except PyErr Int :=
  match s.toList with
  | [] => .error .valueError
  | '-' :: cs =>
    match cs, parseDigits 0 cs with
    | _ :: _, some n => .ok (-(n : Int))
    | _, _ => .error .valueError
  | cs =>
    match parseDigits 0 cs with
    | some n => .ok (n : Int)
    | none => .error .valueError

/-- The body of `CIF.__atoms__` for one row (src/fr3d/cif/reader.py lines
99-121): `__find_symmetries__` yields the single identity operator named
`1_555` and `__apply_symmetry__` returns the row's coordinates unchanged; an
index other than `"."` is converted with `int(...)`, while `"."` itself is
kept as is; an insertion code of `"?"` becomes `None`. -/
def readAtom (pdb : String) (row : AtomSiteRow) : Except PyErr Atom := do
  let index : PyIdx ←
    if row.label_seq_id = "." then pure (.pystr ".")
    else do
      let n ← pyInt row.label_seq_id
      pure (.pyint n)
  let ins : Option String :=
    if row.pdbx_PDB_ins_code = "?" then none else some row.pdbx_PDB_ins_code
  pure { pdb := some pdb, model := some row.pdbx_PDB_model_num,
         chain := some row.auth_asym_id,
         component_id := some row.label_comp_id,
         component_number := some row.auth_seq_id,
         component_index := index, ins_code := ins,
         x := row.cx, y := row.cy, z := row.cz,
         name := row.label_atom_id, symmetry := some "1_555" }

/-- The distinct grouping keys of `CIF.__residues__`'s `mapping`, in order of
first appearance (a `defaultdict` filled in file order). -/
def groupKeys (atoms : List Atom) : List UnitKey :=
  (atoms.map Atom.component_unit_id).dedup

/-- The bucket of atoms sharing one grouping key, in file order. -/
def groupOf (atoms : List Atom) (k : UnitKey) : List Atom :=
  atoms.filter (fun a => Atom.component_unit_id a = k)

/-- The keyword parameters accepted by `Component.__init__`
(src/fr3d/data/components.py lines 16-18); there is no `**kwargs`. -/
def componentInitKeywords : List String :=
  ["atoms", "pdb", "model", "type", "chain", "symmetry", "sequence",
   "number", "index", "insertion_code", "polymeric", "alt_id"]

/-- The keyword arguments `CIF.__residues__` passes to `Component`
(src/fr3d/cif/reader.py lines 88-96). -/
def residueCallKeywords : List String :=
  ["pdb", "model", "chain", "symmetry", "sequence", "number", "index", "ins_code"]

/-- One iteration of the residue-building loop of `CIF.__residues__`
(src/fr3d/cif/reader.py lines 85-96): Python binds the keyword arguments of
the `Component(...)` call before the constructor body runs, raising
`TypeError` when a keyword is not a parameter of `Component.__init__`; an
empty bucket would make `atoms[0]` raise `IndexError` (it never occurs). -/
def mkResidue (env : Env) (atoms : List Atom) : Except PyErr Component :=
  match atoms with
  | [] => .error .indexError
  | first :: _ =>
    if residueCallKeywords.all (fun k => componentInitKeywords.contains k) then
      .ok (mkComponent env atoms first.pdb first.model none first.chain
        first.symmetry first.component_id first.component_number
        first.component_index first.ins_code none none)
    else .error .typeError

/-- `CIF.__residues__` (src/fr3d/cif/reader.py lines 79-97): read the atoms,
bucket them by composite identity key in file order, and build one Component
per bucket from its first atom's fields. -/
def residues (env : Env) (pdb : String) (rows : List AtomSiteRow) :
    Except PyErr (List Component) := do
  let atoms ← rows.mapM (readAtom pdb)
  (groupKeys atoms).mapM (fun k => mkResidue env (groupOf atoms k))

/-- One row of the `pdbx_struct_oper_list` category, as used by
`CIF.__load_assemblies__`: only its `id` is consulted. -/
structure OperRow where
  id : String
deriving DecidableEq, Repr

/-- One row of the `pdbx_struct_assembly_gen` category. -/
structure AssemblyGenRow where
  oper_expression : String
  asym_id_list : String
deriving DecidableEq, Repr

/-- The chain-id to operator-list mapping (`defaultdict(list)`). -/
def AssemblyMap : Type := String → List OperRow

/-- Append `op` to the list stored under `k`. -/
def appendOp (m : AssemblyMap) (k : String) (op : OperRow) : AssemblyMap :=
  fun k2 => if k2 = k then m k ++ [op] else m k2

/-- The `operators` dict of `CIF.__load_assemblies__`
(src/fr3d/cif/reader.py line 52), keyed by operator id. -/
def operatorMap (opers : List OperRow) : List (String × OperRow) :=
  opers.map (fun o => (o.id, o))

/-- Splitting a character list at commas, as Python `s.split(',')` does. -/
def splitCommaAux (acc : List Char) : List Char → List String
  | [] => [String.mk acc.reverse]
  | c :: cs =>
    if c = ',' then String.mk acc.reverse :: splitCommaAux [] cs
    else splitCommaAux (c :: acc) cs

/-- Python `s.split(',')`. -/
def splitComma (s : String) : List String :=
  splitCommaAux [] s.toList

/-- One iteration of the assembly loop (src/fr3d/cif/reader.py lines 54-60):
an operator expression absent from the operator dict raises
`ComplexOperatorException`; otherwise the comma-separated `asym_id_list` is
split and the inner `for asym_id in asym_ids` walks the CHARACTERS of each
token, appending the operator under each one-character string. -/
def addGen (ops : List (String × OperRow)) (m : AssemblyMap)
    (g : AssemblyGenRow) : Except PyErr AssemblyMap :=
  match dictGet ops g.oper_expression with
  | none => .error .complexOperator
  | some op =>
    .ok ((splitComma g.asym_id_list).foldl (fun m2 tok =>
      tok.toList.foldl (fun m3 ch => appendOp m3 (Char.toString ch) op) m2) m)

/-- The assembly loop over all `pdbx_struct_assembly_gen` rows. -/
def loadAssembliesAux (ops : List (String × OperRow)) (m : AssemblyMap) :
    List AssemblyGenRow → Except PyErr AssemblyMap
  | [] => .ok m
  | g :: gs =>
    match addGen ops m g with
    | .error e => .error e
    | .ok m2 => loadAssembliesAux ops m2 gs

/-- `CIF.__load_assemblies__` (src/fr3d/cif/reader.py lines 51-61). -/
def load_assemblies (opers : List OperRow) (gens : List AssemblyGenRow) :
    Except PyErr AssemblyMap :=
  loadAssembliesAux (operatorMap opers) (fun _ => []) gens

/-- The operators a single assembly-generation row contributes to the key
`k`: nothing when its expression does not resolve, otherwise one copy of the
resolved operator per occurrence of the character `k` among its
comma-separated chain-id tokens. -/
def genOpsFor (ops : List (String × OperRow)) (g : AssemblyGenRow)
    (k : String) : List OperRow :=
  match dictGet ops g.oper_expression with
  | none => []
  | some op =>
    (splitComma g.asym_id_list).flatMap (fun tok =>
      tok.toList.filterMap (fun ch =>
        if Char.toString ch = k then some op else none))

/-- Cartesian product of two lists, pairing in loop order. -/
def listProd {α β : Type} (l1 : List α) (l2 : List β) : List (α × β) :=
  l1.flatMap (fun a => l2.map (fun b => (a, b)))

/-- The number of (this-atom, other-atom) pairs whose distance is at most
`|cutoff|`, over the same name-restricted atom lists `atoms_within` uses. -/
def closePairCount (c other : Component) (cutoff : ℚ)
    (usingNames toNames : Option (List String)) : Nat :=
  (listProd (c.selAtoms usingNames) (other.selAtoms toNames)).countP
    (fun q => closeB cutoff q.1 q.2)

/-- An environment with empty residue-chemistry tables and a failing fit,
for runs that never consult them. -/
def envTriv : Env :=
  { RNAbaseheavyatoms := [], nt_sugar := [], nt_phosphate := [], aa_fg := [],
    aa_backbone := [], modified_nucleotides := [], RNAbasecoordinates := [],
    RNAbasehydrogens := [], fit := fun _ _ => none }

/-- A single well-formed `atom_site` row. -/
def rowC1 : AtomSiteRow :=
  { label_seq_id := "1", pdbx_PDB_ins_code := "?", pdbx_PDB_model_num := 1,
    auth_asym_id := "A", label_comp_id := "A", auth_seq_id := 1,
    cx := 0, cy := 0, cz := 0, label_atom_id := "N9" }

/-- One operator with id `1`. -/
def opersC2 : List OperRow := [⟨"1"⟩]

/-- One assembly-generation row naming the two-character chain id `AB`. -/
def gensC2 : List AssemblyGenRow := [⟨"1", "AB"⟩]

/-- The mapping produced for `opersC2`/`gensC2`. -/
def mapC2 : AssemblyMap :=
  match load_assemblies opersC2 gensC2 with
  | .ok m => m
  | .error _ => fun _ => []

/-- An `atom_site` row whose `label_seq_id` is the placeholder `.`. -/
def rowC3dot : AtomSiteRow := { rowC1 with label_seq_id := "." }

/-- The atom read from `rowC3dot`. -/
def atomC3dot : Atom :=
  match readAtom "1ABC" rowC3dot with
  | .ok a => a
  | .error _ => { name := "", x := 0, y := 0, z := 0 }

/-- An `atom_site` row with an insertion code and a numeric index. -/
def rowC3w : AtomSiteRow :=
  { rowC1 with label_seq_id := "7", pdbx_PDB_ins_code := "B" }

/-- The atom read from `rowC3w`. -/
def atomC3w : Atom :=
  match readAtom "1ABC" rowC3w with
  | .ok a => a
  | .error _ => { name := "", x := 0, y := 0, z := 0 }

/-- Three heavy base atoms of a residue of type `A` in this example
environment. -/
def atomsC45 : List Atom :=
  [{ name := "N1", x := 0, y := 0, z := 0 },
   { name := "C2", x := 3, y := 0, z := 0 },
   { name := "N3", x := 0, y := 3, z := 0 }]

/-- An environment in which residue type `A` has three heavy base atoms, a
hydrogen template containing `H2`, and a successful identity fit. -/
def envC4 : Env :=
  { envTriv with
    RNAbaseheavyatoms := [("A", ["N1", "C2", "N3"])],
    RNAbasecoordinates :=
      [("A", [("N1", ⟨0, 0, 0⟩), ("C2", ⟨1, 0, 0⟩), ("N3", ⟨0, 1, 0⟩),
              ("H2", ⟨2, 0, 0⟩)])],
    RNAbasehydrogens := [("A", ["H2"])],
    fit := fun _ _ => some Mat3.id }

/-- An atom named like the template hydrogen, already present. -/
def atomH2C4 : Atom := { name := "H2", x := 5, y := 5, z := 5 }

/-- A residue of type `A` that already contains the hydrogen `H2`. -/
def compC4 : Component :=
  mkComponent envC4 (atomsC45 ++ [atomH2C4]) (some "1ABC") (some 1) none
    (some "A") (some "1_555") (some "A") (some 1) (.pyint 1) none none none

/-- The component produced by transforming `compC4` with the identity. -/
def compC4res : Component :=
  match compC4.transform envC4 Mat4.id with
  | .ok c => c
  | .error _ => compC4

/-- An environment in which residue type `A` has a single heavy base atom,
so the superposition has fewer than 3 points and fails. -/
def envC5a : Env :=
  { envTriv with
    RNAbaseheavyatoms := [("A", ["N9"])],
    RNAbasecoordinates := [("A", [("N9", ⟨0, 0, 0⟩)])] }

/-- A residue of type `A` with one heavy base atom: its base center exists
but its rotation matrix was never set. -/
def compC5a : Component :=
  mkComponent envC5a [{ name := "N9", x := 1, y := 2, z := 3 }] (some "1ABC")
    (some 1) none (some "A") (some "1_555") (some "A") (some 1) (.pyint 1)
    none none none

/-- An environment with three heavy base atoms for type `A` and a successful
identity fit. -/
def envC5b : Env :=
  { envTriv with
    RNAbaseheavyatoms := [("A", ["N1", "C2", "N3"])],
    RNAbasecoordinates :=
      [("A", [("N1", ⟨0, 0, 0⟩), ("C2", ⟨1, 0, 0⟩), ("N3", ⟨0, 1, 0⟩)])],
    fit := fun _ _ => some Mat3.id }

/-- A residue of type `A` with a base center and a rotation matrix. -/
def compC5b : Component :=
  mkComponent envC5b atomsC45 (some "1ABC") (some 1) none (some "A")
    (some "1_555") (some "A") (some 1) (.pyint 1) none none none

/-- A component with a fixed composite identity and index 1. -/
def compC7a : Component :=
  { atoms_ := [], pdb := some "1ABC", model := some 1, chain := some "A",
    symmetry := some "1_555", sequence := some "A", number := some 1,
    index := .pyint 1, insertion_code := none, alt_id := none }

/-- The same identity as `compC7a` except for the index. -/
def compC7b : Component := { compC7a with index := .pyint 2 }

/-- An atom named `A` at the origin. -/
def atomC8a : Atom := { name := "A", x := 0, y := 0, z := 0 }

/-- A second atom also named `A`. -/
def atomC8b : Atom := { name := "A", x := 1, y := 0, z := 0 }

/-- A component holding two atoms that share the name `A`. -/
def compC8 : Component := { atoms_ := [atomC8a, atomC8b] }

/-- A component holding atoms named `P` and `Q`. -/
def compC8w : Component :=
  { atoms_ := [{ name := "P", x := 0, y := 0, z := 0 },
               { name := "Q", x := 1, y := 0, z := 0 }] }

/-- A component with one atom at the origin. -/
def compC9a : Component := { atoms_ := [{ name := "P", x := 0, y := 0, z := 0 }] }

/-- A component with one atom 10 units away from the origin. -/
def compC9b : Component := { atoms_ := [{ name := "P", x := 10, y := 0, z := 0 }] }

/-- A component whose `sequence` field holds the string `A`. -/
def compC10 : Component := { compC7a with atoms_ := [] }

/-! Theorems: validation lemmas for the transparent arithmetic, general
lemmas about the embedded operations, and the claim theorems. -/

theorem qint_eq (n : Int) : qint n = (n : ℚ) := rfl

theorem qadd_eq (a b : ℚ) : qadd a b = a + b := by rw [Rat.add_def]; rfl

theorem qmul_eq (a b : ℚ) : qmul a b = a * b := by rw [Rat.mul_def]; rfl

theorem qneg_eq (a : ℚ) : qneg a = -a := by
  refine Rat.ext ?_ ?_ <;> simp [qneg]

theorem qsub_eq (a b : ℚ) : qsub a b = a - b := by
  rw [qsub, qadd_eq, qneg_eq, sub_eq_add_neg]

theorem qdivNat_eq (a : ℚ) (n : Nat) : qdivNat a n = a / (n : ℚ) := by
  rw [qdivNat, Rat.mkRat_eq_div]
  push_cast
  rw [div_mul_eq_div_div, Rat.num_div_den]

theorem qabs_eq (a : ℚ) : qabs a = |a| := by
  rw [qabs]
  by_cases h : a.num < 0
  · have ha : a < 0 := by
      by_contra hle
      exact absurd (Rat.num_nonneg.2 (not_lt.1 hle)) (Int.not_le.2 h)
    rw [if_pos h, qneg_eq, abs_of_neg ha]
  · rw [if_neg h, abs_of_nonneg (Rat.num_nonneg.1 (Int.not_lt.1 h))]

theorem dictGet_operatorMap_eq_none (opers : List OperRow) (k : String) :
    dictGet (operatorMap opers) k = none ↔ ∀ op ∈ opers, op.id ≠ k := by
  simp [dictGet, alookup, operatorMap, List.find?_eq_none]

theorem loadAssembliesAux_error (ops : List (String × OperRow))
    (gens : List AssemblyGenRow)
    (hbad : ∃ g ∈ gens, dictGet ops g.oper_expression = none)
    (m : AssemblyMap) :
    loadAssembliesAux ops m gens = .error .complexOperator := by
  induction gens generalizing m with
  | nil => simp at hbad
  | cons g gs ih =>
    obtain ⟨g2, hg2, hnone⟩ := hbad
    rcases List.mem_cons.1 hg2 with rfl | hmem
    · simp [loadAssembliesAux, addGen, hnone]
    · cases hop : dictGet ops g.oper_expression with
      | none => simp [loadAssembliesAux, addGen, hop]
      | some op =>
        simp only [loadAssembliesAux, addGen, hop]
        exact ih ⟨g2, hmem, hnone⟩ _

theorem charFold_apply (op : OperRow) (chars : List Char) (m : AssemblyMap)
    (k : String) :
    (chars.foldl (fun m3 ch => appendOp m3 (Char.toString ch) op) m) k =
      m k ++ chars.filterMap (fun ch =>
        if Char.toString ch = k then some op else none) := by
  induction chars generalizing m with
  | nil => simp
  | cons c cs ih =>
    simp only [List.foldl_cons, List.filterMap_cons, ih]
    by_cases h : Char.toString c = k
    · subst h
      simp [appendOp]
    · have h2 : ¬(k = Char.toString c) := fun hk => h hk.symm
      simp [appendOp, h, h2]

theorem tokFold_apply (op : OperRow) (toks : List String) (m : AssemblyMap)
    (k : String) :
    (toks.foldl (fun m2 tok =>
        tok.toList.foldl (fun m3 ch => appendOp m3 (Char.toString ch) op) m2) m) k =
      m k ++ toks.flatMap (fun tok =>
        tok.toList.filterMap (fun ch =>
          if Char.toString ch = k then some op else none)) := by
  induction toks generalizing m with
  | nil => simp
  | cons t ts ih =>
    simp only [List.foldl_cons, List.flatMap_cons, ih, charFold_apply,
      List.append_assoc]

theorem loadAssembliesAux_ok (ops : List (String × OperRow))
    (gens : List AssemblyGenRow)
    (hok : ∀ g ∈ gens, (dictGet ops g.oper_expression).isSome)
    (m : AssemblyMap) :
    ∃ m2, loadAssembliesAux ops m gens = .ok m2 ∧
      ∀ k, m2 k = m k ++ gens.flatMap (fun g => genOpsFor ops g k) := by
  induction gens generalizing m with
  | nil => exact ⟨m, rfl, by simp⟩
  | cons g gs ih =>
    cases hop : dictGet ops g.oper_expression with
    | none => simpa [hop] using hok g (List.mem_cons_self g gs)
    | some op =>
      obtain ⟨m2, hrun, hval⟩ :=
        ih (fun g2 hg2 => hok g2 (List.mem_cons_of_mem g hg2))
          ((splitComma g.asym_id_list).foldl (fun m2 tok =>
            tok.toList.foldl (fun m3 ch => appendOp m3 (Char.toString ch) op) m2) m)
      refine ⟨m2, ?_, ?_⟩
      · simp only [loadAssembliesAux, addGen, hop]
        exact hrun
      · intro k
        rw [hval k, tokFold_apply, List.flatMap_cons, List.append_assoc]
        simp [genOpsFor, hop]

/-- C6: an assembly-generation entry whose operator expression is not the id
of any operator in the operator-list category makes the chain-to-operator
resolution fail with `ComplexOperatorException` instead of producing an
operator for the affected chains. -/
theorem load_assemblies_unknown_operator_raises (opers : List OperRow)
    (gens : List AssemblyGenRow) (g : AssemblyGenRow) (hg : g ∈ gens)
    (hbad : ∀ op ∈ opers, op.id ≠ g.oper_expression) :
    load_assemblies opers gens = Except.error PyErr.complexOperator :=
  loadAssembliesAux_error _ _
    ⟨g, hg, (dictGet_operatorMap_eq_none _ _).2 hbad⟩ _

/-- Witness for the previous theorem: the two-operator expression `1,2` is
not an operator id, so resolution fails on a concrete document. -/
theorem load_assemblies_unknown_operator_raises_witness :
    load_assemblies [⟨"1"⟩, ⟨"2"⟩] [⟨"1,2", "A"⟩] =
      Except.error PyErr.complexOperator :=
  load_assemblies_unknown_operator_raises [⟨"1"⟩, ⟨"2"⟩] [⟨"1,2", "A"⟩]
    ⟨"1,2", "A"⟩ (by decide) (by decide)

/-- C2 counterexample: for the entry listing the two-character chain id `AB`
with resolvable operator `1`, the resolver appends the operator under the
chain ids `A` and `B` and appends nothing under `AB` — not, as claimed, to
`AB` and to no other chain id. -/
theorem load_assemblies_splits_multichar_chain_id :
    load_assemblies opersC2 gensC2 = Except.ok mapC2 ∧
    mapC2 "AB" = [] ∧ mapC2 "A" = [⟨"1"⟩] ∧ mapC2 "B" = [⟨"1"⟩] :=
  ⟨rfl, by decide, by decide, by decide⟩

/-- C2 (amended): when every entry's operator expression resolves, the
resolver succeeds, and each chain key receives one copy of an entry's
resolved operator per occurrence of that key as a single CHARACTER of the
entry's comma-separated chain-id tokens; a multi-character token receives
nothing under its full id. -/
theorem load_assemblies_appends_per_character (opers : List OperRow)
    (gens : List AssemblyGenRow)
    (hok : ∀ g ∈ gens, (dictGet (operatorMap opers) g.oper_expression).isSome) :
    ∃ m, load_assemblies opers gens = Except.ok m ∧
      ∀ k, m k = gens.flatMap (fun g => genOpsFor (operatorMap opers) g k) := by
  obtain ⟨m, h1, h2⟩ := loadAssembliesAux_ok (operatorMap opers) gens hok (fun _ => [])
  exact ⟨m, h1, fun k => by simpa using h2 k⟩

/-- Witness for the per-character append theorem on a concrete document. -/
theorem load_assemblies_appends_per_character_witness :
    ∃ m, load_assemblies opersC2 gensC2 = Except.ok m ∧
      ∀ k, m k = gensC2.flatMap (fun g => genOpsFor (operatorMap opersC2) g k) :=
  load_assemblies_appends_per_character opersC2 gensC2 (by decide)

/-- C1 (code-bug evaluation): `CIF.__residues__` calls `Component` with the
keyword `ins_code`, which is not a parameter of `Component.__init__`, so the
very first residue construction raises `TypeError` and no partition into
Components is ever produced: on a document with a single atom-site row the
assembly errors instead of returning one Component. -/
theorem residues_one_atom_raises_type_error :
    "ins_code" ∈ residueCallKeywords ∧ "ins_code" ∉ componentInitKeywords ∧
    residues envTriv "1ABC" [rowC1] = Except.error PyErr.typeError := by
  refine ⟨by decide, by decide, by decide⟩

/-- C10: `enough_hydrogen_bonds` begins by calling the string-valued
`sequence` attribute as a function, so for every Component whose sequence is
a string it raises `TypeError` before any distance is computed and never
returns a count-based boolean. -/
theorem enough_hydrogen_bonds_raises_type_error (env : Env)
    (c second : Component) (md : ℚ) (mb : Int) (s : String)
    (hs : c.sequence = some s) :
    Component.enough_hydrogen_bonds env c second md mb =
      Except.error PyErr.typeError := by
  unfold Component.enough_hydrogen_bonds
  rw [hs]
  rfl

/-- Witness: a concrete Component with sequence `A` raises on the call. -/
theorem enough_hydrogen_bonds_raises_type_error_witness :
    Component.enough_hydrogen_bonds envTriv compC10 compC10 4 2 =
      Except.error PyErr.typeError :=
  enough_hydrogen_bonds_raises_type_error envTriv compC10 compC10 4 2 "A"
    (by decide)

/-- C7 counterexample: two Components that differ in their index compare
equal under `__eq__`, so equality does not coincide with matching of the
full composite identity (which includes the index). -/
theorem eqPy_ignores_index :
    Component.eqPy compC7a compC7b = true ∧ compC7a.index ≠ compC7b.index := by
  refine ⟨by decide, by decide⟩

/-- C7 (amended): two Components are `__eq__`-equal iff they agree on pdb,
model, chain, symmetry, sequence, number, insertion code and alt id — the
index is not part of the comparison, and atom membership plays no part. -/
theorem eqPy_iff_identity_without_index (a b : Component) :
    Component.eqPy a b = true ↔
      (a.pdb = b.pdb ∧ a.model = b.model ∧ a.chain = b.chain ∧
       a.symmetry = b.symmetry ∧ a.sequence = b.sequence ∧
       a.number = b.number ∧ a.insertion_code = b.insertion_code ∧
       a.alt_id = b.alt_id) := by
  simp [Component.eqPy, and_assoc]

/-- C3 counterexample: an atom-site row whose `label_seq_id` is the
placeholder `.` yields an Atom whose index is still the string `.`, not the
absent value `None`. -/
theorem readAtom_keeps_dot_index :
    readAtom "1ABC" rowC3dot = Except.ok atomC3dot ∧
    atomC3dot.component_index = PyIdx.pystr "." ∧
    atomC3dot.component_index ≠ PyIdx.pynone := by
  refine ⟨by decide, by decide, by decide⟩

/-- C3 (amended): the reader maps an insertion code of `?` to `None` and
keeps any other insertion code; an index of `.` is kept as the placeholder
string (not normalized to `None`), and any other index is converted with
`int(...)`. -/
theorem readAtom_normalizes_fields (pdb : String) (row : AtomSiteRow)
    (a : Atom) (h : readAtom pdb row = Except.ok a) :
    (row.pdbx_PDB_ins_code = "?" → a.ins_code = none) ∧
    (row.pdbx_PDB_ins_code ≠ "?" → a.ins_code = some row.pdbx_PDB_ins_code) ∧
    (row.label_seq_id = "." → a.component_index = PyIdx.pystr ".") ∧
    (row.label_seq_id ≠ "." →
      ∃ n, pyInt row.label_seq_id = Except.ok n ∧
        a.component_index = PyIdx.pyint n) := by
  by_cases hdot : row.label_seq_id = "."
  · simp only [readAtom, hdot, if_pos, pure, Except.pure] at h
    cases h
    by_cases hq : row.pdbx_PDB_ins_code = "?" <;>
      simp [hdot, hq]
  · rcases hint : pyInt row.label_seq_id with e | n
    · simp [readAtom, hdot, hint, bind, Except.bind] at h
    · simp only [readAtom, hdot, if_neg, hint, bind, Except.bind, pure,
        Except.pure] at h
      cases h
      by_cases hq : row.pdbx_PDB_ins_code = "?" <;>
        simp [hdot, hq, hint]

/-- Witness: a concrete row with insertion code `B` and index `7` keeps the
insertion code and converts the index. -/
theorem readAtom_normalizes_fields_witness :
    readAtom "1ABC" rowC3w = Except.ok atomC3w ∧
    atomC3w.ins_code = some "B" :=
  ⟨by decide,
   (readAtom_normalizes_fields "1ABC" rowC3w atomC3w (by decide)).2.1
     (by decide)⟩

/-- C5 counterexample: a Component whose base center exists but whose
rotation matrix was never set (its superposition had fewer than 3 points)
makes `standard_transformation` raise `AttributeError` instead of returning
`None`. -/
theorem standard_transformation_raises_without_rotation :
    compC5a.rotation_matrix = none ∧
    (compC5a.centerOf "base").isSome ∧
    compC5a.standard_transformation = Except.error PyErr.attributeError := by
  refine ⟨by decide, by decide, by decide⟩

/-- C5 (amended): with no `base` group or an empty base center the operation
returns `None`; with a non-empty base center and rotation matrix `R` it
returns the homogeneous matrix with upper-left block `R` transpose,
translation `-(R` transpose `· c)` and last row `(0 0 0 1)`; but with a
non-empty base center and a missing rotation matrix it raises
`AttributeError` rather than returning `None`. -/
theorem standard_transformation_formula (c : Component) :
    ((c.centerDef "base" = none ∨ c.centerOf "base" = none) →
      c.standard_transformation = Except.ok none) ∧
    (∀ ctr, (c.centerDef "base").isSome → c.centerOf "base" = some ctr →
      c.rotation_matrix = none →
      c.standard_transformation = Except.error PyErr.attributeError) ∧
    (∀ r ctr, (c.centerDef "base").isSome → c.centerOf "base" = some ctr →
      c.rotation_matrix = some r →
      c.standard_transformation =
        Except.ok (some (specStandardMat r.transpose ctr))) := by
  refine ⟨?_, ?_, ?_⟩
  · rintro (hdef | hctr)
    · simp [Component.standard_transformation, hdef]
    · by_cases hdef : (c.centerDef "base").isNone
      · simp [Component.standard_transformation, hdef]
      · simp [Component.standard_transformation, hdef, hctr]
  · intro ctr hdef hctr hrot
    have hd : ¬(c.centerDef "base").isNone := by
      simp only [Option.isNone_iff_eq_none]
      exact Option.isSome_iff_ne_none.1 hdef
    simp [Component.standard_transformation, hd, hctr,
      Component.getRotation, hrot]
  · intro r ctr hdef hctr hrot
    have hd : ¬(c.centerDef "base").isNone := by
      simp only [Option.isNone_iff_eq_none]
      exact Option.isSome_iff_ne_none.1 hdef
    simp [Component.standard_transformation, hd, hctr,
      Component.getRotation, hrot]

/-- Witness: a concrete residue with three heavy base atoms, identity
rotation and base center `(1, 1, 0)` produces the claimed matrix. -/
theorem standard_transformation_formula_witness :
    compC5b.standard_transformation =
      Except.ok (some (specStandardMat Mat3.id.transpose ⟨1, 1, 0⟩)) :=
  (standard_transformation_formula compC5b).2.2 Mat3.id ⟨1, 1, 0⟩
    (by decide) (by decide) (by decide)

theorem foldl_count_inner (p : Atom → Atom → Bool) (a1 : Atom)
    (l2 : List Atom) (acc : Int) :
    l2.foldl (fun acc2 a2 => if p a1 a2 then acc2 + 1 else acc2) acc =
      acc + (l2.countP (p a1) : Int) := by
  induction l2 generalizing acc with
  | nil => simp
  | cons a2 l2 ih =>
    by_cases h : p a1 a2
    · simp only [List.foldl_cons, h, if_pos, List.countP_cons, ih]
      push_cast [h]
      omega
    · simp only [List.foldl_cons, h, if_neg, List.countP_cons, ih]
      simp [h]

theorem foldl_count_outer (p : Atom → Atom → Bool) (l1 l2 : List Atom)
    (acc : Int) :
    l1.foldl (fun acc3 a1 =>
        l2.foldl (fun acc2 a2 => if p a1 a2 then acc2 + 1 else acc2) acc3) acc =
      acc + ((listProd l1 l2).countP (fun q => p q.1 q.2) : Int) := by
  induction l1 generalizing acc with
  | nil => simp [listProd]
  | cons a1 l1 ih =>
    rw [List.foldl_cons, foldl_count_inner, ih]
    simp only [listProd, List.flatMap_cons, List.countP_append,
      List.countP_map]
    have hcomp : List.countP ((fun q : Atom × Atom => p q.1 q.2) ∘
        fun b => (a1, b)) l2 = List.countP (p a1) l2 := rfl
    rw [hcomp]
    push_cast
    ring

/-- C9 counterexample: when fewer than `min_number` pairs are in range the
call returns Python `None`, not a boolean: it is neither `True` nor
`False`. -/
theorem atoms_within_returns_none_not_false :
    compC9a.atoms_within compC9b 1 none none 1 ≠ some true ∧
    compC9a.atoms_within compC9b 1 none none 1 ≠ some false ∧
    compC9a.atoms_within compC9b 1 none none 1 = none := by
  refine ⟨by decide, by decide, by decide⟩

/-- C9 (amended): `atoms_within` returns `True` iff at least `min_number`
pairs of (this-atom, other-atom), over the optionally name-restricted atom
lists, are within `|cutoff|` of each other (the comparison taken on squared
distances); otherwise it returns `None`, falling off the end of the
function, rather than a boolean `False`. -/
theorem atoms_within_characterization (c other : Component) (cutoff : ℚ)
    (usingNames toNames : Option (List String)) (min_number : Int) :
    (c.atoms_within other cutoff usingNames toNames min_number = some true ↔
      min_number ≤ (closePairCount c other cutoff usingNames toNames : Int)) ∧
    (¬ min_number ≤ (closePairCount c other cutoff usingNames toNames : Int) →
      c.atoms_within other cutoff usingNames toNames min_number = none) := by
  have hc := foldl_count_outer (closeB cutoff) (c.selAtoms usingNames)
    (other.selAtoms toNames) 0
  rw [zero_add] at hc
  constructor
  · unfold Component.atoms_within
    rw [hc]
    unfold closePairCount
    by_cases h : min_number ≤
        ((listProd (c.selAtoms usingNames) (other.selAtoms toNames)).countP
          (fun q => closeB cutoff q.1 q.2) : Int)
    · simp [h]
    · simp [h]
  · intro h
    unfold Component.atoms_within
    rw [hc]
    unfold closePairCount at h
    simp [h]

/-- Witness: with a wide cutoff the concrete pair is within range and the
call returns `True`; with a narrow one it returns `None`. -/
theorem atoms_within_characterization_witness :
    compC9a.atoms_within compC9b 100 none none 1 = some true ∧
    compC9a.atoms_within compC9b 1 none none 1 = none :=
  ⟨(atoms_within_characterization compC9a compC9b 100 none none 1).1.mpr
      (by decide),
   (atoms_within_characterization compC9a compC9b 1 none none 1).2
      (by decide)⟩

/-- C8 counterexample: a component holding two atoms named `A` reports
`is_complete(["A", "B"])` as true although `B` is not present at all (let
alone exactly once): the claimed exactly-once characterization fails when
several atoms share a requested name. -/
theorem is_complete_duplicate_names :
    compC8.is_complete ["A", "B"] = true ∧
    "B" ∉ compC8.atoms_.map Atom.name := by
  refine ⟨by decide, by decide⟩

/-- C8 (amended): `is_complete(names)` is true iff the number of atoms whose
name is in `names` equals `len(names)`; only under the docstring's
uniqueness assumptions (distinct atom names and distinct requested names)
does this coincide with every requested name being present (then necessarily
exactly once). -/
theorem is_complete_count_characterization (c : Component)
    (names : List String) :
    (c.is_complete names = true ↔
      (c.atoms_.filter (fun a => a.name ∈ names)).length = names.length) ∧
    ((c.atoms_.map Atom.name).Nodup → names.Nodup →
      (c.is_complete names = true ↔
        ∀ nm ∈ names, nm ∈ c.atoms_.map Atom.name)) := by
  have hlen : c.is_complete names = true ↔
      (c.atoms_.filter (fun a => a.name ∈ names)).length = names.length := by
    unfold Component.is_complete Component.atomsSel
    simp
  refine ⟨hlen, fun hA hN => ?_⟩
  rw [hlen]
  have h1 : (c.atoms_.filter (fun a => a.name ∈ names)).length =
      ((c.atoms_.map Atom.name).filter (fun nm => nm ∈ names)).length := by
    conv_rhs => rw [List.filter_map]
    rw [List.length_map]
    rfl
  rw [h1]
  have hLf : ((c.atoms_.map Atom.name).filter (fun nm => nm ∈ names)).length =
      ((c.atoms_.map Atom.name).toFinset ∩ names.toFinset).card := by
    rw [← List.toFinset_card_of_nodup (hA.filter _), List.toFinset_filter]
    congr 1
    ext nm
    simp
  have hNc : names.length = names.toFinset.card :=
    (List.toFinset_card_of_nodup hN).symm
  rw [hLf, hNc]
  constructor
  · intro h
    have hsub : (c.atoms_.map Atom.name).toFinset ∩ names.toFinset =
        names.toFinset :=
      Finset.eq_of_subset_of_card_le Finset.inter_subset_right
        (le_of_eq h.symm)
    intro nm hnm
    exact List.mem_toFinset.1
      (Finset.inter_eq_right.1 hsub (List.mem_toFinset.2 hnm))
  · intro h
    have hsub : names.toFinset ⊆ (c.atoms_.map Atom.name).toFinset := by
      intro nm hnm
      exact List.mem_toFinset.2 (h nm (List.mem_toFinset.1 hnm))
    rw [Finset.inter_eq_right.2 hsub]

/-- Witness: a component with atoms `P` and `Q` is complete for those two
names. -/
theorem is_complete_count_characterization_witness :
    compC8w.is_complete ["P", "Q"] = true :=
  ((is_complete_count_characterization compC8w ["P", "Q"]).2 (by decide)
    (by decide)).mpr (by decide)

/-- C4 counterexample: a source component already containing the template
hydrogen `H2` keeps it (transformed) and then has the template `H2` inferred
again, so the transformed component holds two copies of that template
hydrogen — existing hydrogens are not discarded. -/
theorem transform_keeps_existing_hydrogens :
    compC4.atoms_.countP (fun a => a.name = "H2") = 1 ∧
    compC4.transform envC4 Mat4.id = Except.ok compC4res ∧
    compC4res.atoms_.countP (fun a => a.name = "H2") = 2 := by
  refine ⟨by decide, by decide, by decide⟩

/-- C4 (amended): when `transform` succeeds it preserves every identity/type
field of the Component, and its atom list is every source atom (existing
hydrogens included — they are kept, not discarded) passed through the 4x4
matrix, followed by the freshly inferred template hydrogens of the residue
type (none when the type has no hydrogen template); a source that already
holds a template hydrogen therefore ends up with two copies. -/
theorem transform_preserves_fields_and_appends_hydrogens (env : Env)
    (c : Component) (m : Mat4) (c2 : Component)
    (h : c.transform env m = Except.ok c2) :
    (c2.pdb = c.pdb ∧ c2.model = c.model ∧ c2.type_ = c.type_ ∧
     c2.chain = c.chain ∧ c2.symmetry = c.symmetry ∧
     c2.sequence = c.sequence ∧ c2.number = c.number ∧ c2.index = c.index ∧
     c2.insertion_code = c.insertion_code ∧ c2.polymeric = c.polymeric ∧
     c2.alt_id = c.alt_id) ∧
    ∃ hs, c2.atoms_ = c.atoms_.map (Atom.transform m) ++ hs ∧
      ((c.sequence.bind (alookup env.RNAbasehydrogens) = none ∧ hs = []) ∨
       (∃ tmpl, c.sequence.bind (alookup env.RNAbasehydrogens) = some tmpl ∧
         hs.map Atom.name = tmpl)) := by
  simp only [Component.transform] at h
  set comp := mkComponent env (c.atoms_.map (Atom.transform m)) c.pdb c.model
    c.type_ c.chain c.symmetry c.sequence c.number c.index c.insertion_code
    c.polymeric c.alt_id with hcomp
  have hseq : comp.sequence = c.sequence := rfl
  simp only [Component.infer_hydrogens, hseq] at h
  cases hb : c.sequence.bind (alookup env.RNAbasehydrogens) with
  | none =>
    simp only [hb] at h
    injection h with h2
    subst h2
    exact ⟨⟨rfl, rfl, rfl, rfl, rfl, rfl, rfl, rfl, rfl, rfl, rfl⟩,
      [], by rw [List.append_nil]; rfl, Or.inl ⟨rfl, rfl⟩⟩
  | some hyd =>
    simp only [hb] at h
    by_cases hemp : hyd.isEmpty
    · rw [if_pos hemp] at h
      injection h with h2
      subst h2
      have hnil : hyd = [] := by simpa using hemp
      exact ⟨⟨rfl, rfl, rfl, rfl, rfl, rfl, rfl, rfl, rfl, rfl, rfl⟩,
        [], by rw [List.append_nil]; rfl, Or.inr ⟨hyd, rfl, by simp [hnil]⟩⟩
    · rw [if_neg hemp] at h
      cases hctr : comp.centerOf "base" with
      | none =>
        simp only [hctr] at h
        exact Except.noConfusion h
      | some ctr =>
        simp only [hctr] at h
        cases hrot : comp.getRotation with
        | error e =>
          simp only [hrot] at h
          exact Except.noConfusion h
        | ok r =>
          simp only [hrot] at h
          injection h with h2
          subst h2
          refine ⟨⟨rfl, rfl, rfl, rfl, rfl, rfl, rfl, rfl, rfl, rfl, rfl⟩,
            _, rfl, Or.inr ⟨hyd, rfl, ?_⟩⟩
          rw [List.map_map]
          exact (List.map_congr_left (fun a _ => rfl)).trans (List.map_id hyd)

/-- Witness: transforming the concrete residue `compC4` by the identity
succeeds and preserves its identity fields. -/
theorem transform_preserves_fields_and_appends_hydrogens_witness :
    compC4.transform envC4 Mat4.id = Except.ok compC4res ∧
    compC4res.pdb = compC4.pdb :=
  ⟨by decide,
   (transform_preserves_fields_and_appends_hydrogens envC4 compC4 Mat4.id
     compC4res (by decide)).1.1⟩

end FR3D
